import Mathlib

/-!
Shallow embedding of the id3-js ID3v2 tag codec: `src/index.ts` (class NodeID3),
`src/frameEncoder.ts` (class FrameEncoder), `src/frameDecoder.ts` (class FrameDecoder)
and `src/frameDefinitions.ts` (alias tables).

Byte buffers (`Buffer`) are `List Nat`, one element per byte.  JavaScript strings
are Lean `String`s; every character appearing in the claims lies in the Basic
Multilingual Plane, where a Lean character is exactly one JavaScript UTF-16 code
unit.  Out-of-range buffer reads (`buffer[i]` yielding `undefined`) are modelled
per use site: in numeric contexts JavaScript coerces `undefined` to 0, which is
`List.getD _ _ 0`; in `=== 0x00` / `=== 0x01` comparisons `undefined` matches
neither, which is `List.headD` with a default that fails the comparison.
Fallible operations return `Option`, with `none` standing for a raised exception
(or, for `NodeID3.remove`, the source's explicit `return false` failure signal,
as noted there).
-/

namespace ID3

/-- Model of a clamped `Buffer` write (`buffer.write(...)`, `writeUInt16BE`,
`writeUInt32BE`, `writeUInt8`): overwrite `base` from offset `pos` with `bytes`,
truncating `bytes` at the end of `base`; the length of `base` is unchanged. -/
def bufWrite (base : List Nat) (pos : Nat) (bytes : List Nat) : List Nat :=
  base.take pos ++ bytes.take (base.length - pos) ++ base.drop (pos + bytes.length)

/-- Model of `Buffer.alloc(n)` followed by `source.copy(target, 0, ...)`: the
copy is clamped to the target's length and the untouched tail stays zero. -/
def zeroPad (n : Nat) (l : List Nat) : List Nat :=
  l.take n ++ List.replicate (n - l.length) 0

/-- The 4 bytes of `writeUInt32BE(v)` (big-endian); the source call throws for
`v ≥ 2^32`, which callers model by returning `none` before using this. -/
def uint32BE (v : Nat) : List Nat :=
  [v / 16777216 % 256, v / 65536 % 256, v / 256 % 256, v % 256]

/-- Model of `buffer.readUIntBE(0, n)` on a buffer holding exactly the listed
bytes: big-endian accumulation. -/
def readUIntBE (bytes : List Nat) : Nat :=
  bytes.foldl (fun acc b => acc * 256 + b) 0

/-- Big-endian 32-bit read at an offset, used to state what a frame header's
size field holds. -/
def readUInt32BE (l : List Nat) (off : Nat) : Nat :=
  l.getD off 0 * 16777216 + l.getD (off + 1) 0 * 65536 +
    l.getD (off + 2) 0 * 256 + l.getD (off + 3) 0

/-- Model of `String.prototype.replace(/\0/g, "")`: drop every NUL character. -/
def stripNulls (s : String) : String :=
  String.mk (s.data.filter (fun c => c ≠ '\x00'))

/-- Model of `String.prototype.substring(a, b)`: indices are clamped into
`[0, length]` and swapped when `a > b` (JavaScript `substring` semantics). -/
def jsSubstring (s : String) (a b : Int) : String :=
  let len : Int := s.data.length
  let a' := min (max a 0) len
  let b' := min (max b 0) len
  let lo := min a' b'
  let hi := max a' b'
  String.mk ((s.data.drop lo.toNat).take (hi - lo).toNat)

/-- Model of one-argument `String.prototype.substring(a)`. -/
def jsSubstringFrom (s : String) (a : Int) : String :=
  jsSubstring s a s.data.length

/-- Model of `buffer.indexOf(byte, start)`: the first index `≥ start` holding
`v`, or `-1` when there is none. -/
def jsIndexOfFrom (l : List Nat) (v : Nat) (start : Nat) : Int :=
  match (List.range l.length).find? (fun i => start ≤ i && l.getD i (v + 1) == v) with
  | some i => (i : Int)
  | none => -1

/-- Model of `buffer.indexOf("0000", 0, "hex")`: first index of two adjacent
zero bytes (any alignment), or `-1`. -/
def indexOfDoubleZero (l : List Nat) : Int :=
  match (List.range l.length).find?
      (fun i => l.getD i 1 == 0 && i + 1 < l.length && l.getD (i + 1) 1 == 0) with
  | some i => (i : Int)
  | none => -1

/-- UTF-16 code units of one character (surrogate pair for astral characters),
as produced by the `iconv-lite` utf16le encoder from a JavaScript string. -/
def utf16UnitsOfChar (c : Char) : List Nat :=
  let n := c.toNat
  if n < 65536 then [n]
  else [55296 + (n - 65536) / 1024, 56320 + (n - 65536) % 1024]

/-- Model of `iconv.encode(s, "utf16")`: a UTF-16LE byte order mark `FF FE`
followed by the little-endian bytes of each UTF-16 code unit (`iconv-lite`'s
`utf16` encoding writes the BOM by default). -/
def utf16Encode (s : String) : List Nat :=
  [255, 254] ++ (s.data.flatMap utf16UnitsOfChar).flatMap (fun u => [u % 256, u / 256])

/-- Little-endian byte pairs to UTF-16 code units; a trailing lone byte is
discarded (as the `iconv-lite` utf16le decoder does at end of stream). -/
def leUnits : List Nat → List Nat
  | lo :: hi :: rest => (lo + 256 * hi) :: leUnits rest
  | _ => []

/-- Big-endian byte pairs to UTF-16 code units (trailing lone byte discarded). -/
def beUnits : List Nat → List Nat
  | hi :: lo :: rest => (lo + 256 * hi) :: beUnits rest
  | _ => []

/-- UTF-16 code units to characters, carrying an optional pending high
surrogate.  A valid surrogate pair is combined into one astral character; a
lone surrogate (which a JavaScript string would keep as an unpaired unit) is
rendered as U+FFFD -- no claim evaluates on surrogate data. -/
def unitsToChars : List Nat → Option Nat → List Char
  | [], none => []
  | [], some _ => [Char.ofNat 65533]
  | u :: rest, none =>
    if 55296 ≤ u ∧ u < 56320 then unitsToChars rest (some u)
    else if 56320 ≤ u ∧ u < 57344 then Char.ofNat 65533 :: unitsToChars rest none
    else Char.ofNat u :: unitsToChars rest none
  | u :: rest, some h =>
    if 56320 ≤ u ∧ u < 57344 then
      Char.ofNat (65536 + (h - 55296) * 1024 + (u - 56320)) :: unitsToChars rest none
    else if 55296 ≤ u ∧ u < 56320 then Char.ofNat 65533 :: unitsToChars rest (some u)
    else Char.ofNat 65533 :: Char.ofNat u :: unitsToChars rest none

/-- UTF-16 code units to a string. -/
def unitsToString (units : List Nat) : List Char :=
  unitsToChars units none

/-- The byte-pair statistics of `iconv-lite`'s `detectEncoding` for BOM-less
input: count pairs that look like little-endian resp. big-endian ASCII over the
first 100 pairs and pick big-endian only on a strict majority (default
otherwise is utf-16le). -/
def detectBE (bytes : List Nat) : Bool :=
  let pairs := (leUnits (bytes.take 200)).map (fun u => (u % 256, u / 256))
  let le := (pairs.filter (fun p => p.1 ≠ 0 ∧ p.2 = 0)).length
  let be := (pairs.filter (fun p => p.1 = 0 ∧ p.2 ≠ 0)).length
  decide (le < be)

/-- Model of `iconv.decode(bytes, "utf16")`: byte-order-mark detection (the
decoded leading U+FEFF is stripped, `iconv-lite`'s default `stripBOM`), falling
back to the ASCII-majority heuristic with utf-16le as default. -/
def decodeUTF16Bytes (bytes : List Nat) : String :=
  match bytes with
  | 255 :: 254 :: rest => String.mk (unitsToString (leUnits rest))
  | 254 :: 255 :: rest => String.mk (unitsToString (beUnits rest))
  | _ =>
    if detectBE bytes then String.mk (unitsToString (beUnits bytes))
    else String.mk (unitsToString (leUnits bytes))

/-- Model of `iconv.decode(bytes, "ISO-8859-1")`: each byte is the identical
Unicode code point. -/
def decodeISO (bytes : List Nat) : String :=
  String.mk (bytes.map Char.ofNat)

/-- UTF-8 bytes of one character (the encoding Node's `buffer.write` and
`Buffer.from(string)` use by default). -/
def utf8EncodeChar (c : Char) : List Nat :=
  let n := c.toNat
  if n < 128 then [n]
  else if n < 2048 then [192 + n / 64, 128 + n % 64]
  else if n < 65536 then [224 + n / 4096, 128 + n / 64 % 64, 128 + n % 64]
  else [240 + n / 262144, 128 + n / 4096 % 64, 128 + n / 64 % 64, 128 + n % 64]

/-- Model of `Buffer.from(s)` / `buffer.write(s, pos)`: the UTF-8 bytes of the
string. -/
def utf8EncodeStr (s : String) : List Nat :=
  s.data.flatMap utf8EncodeChar

/-- State of the incremental UTF-8 decoder: continuation bytes still required,
accumulated code-point bits, and the smallest legal code point for the current
sequence (overlong detection). -/
structure Utf8State where
  need : Nat
  pending : Nat
  lowest : Nat
  deriving DecidableEq

/-- Start decoding one UTF-8 sequence at its lead byte. -/
def utf8Start (b : Nat) : List Char × Utf8State :=
  if b < 128 then ([Char.ofNat b], ⟨0, 0, 0⟩)
  else if b < 192 then ([Char.ofNat 65533], ⟨0, 0, 0⟩)
  else if b < 224 then ([], ⟨1, b - 192, 128⟩)
  else if b < 240 then ([], ⟨2, b - 224, 2048⟩)
  else if b < 248 then ([], ⟨3, b - 240, 65536⟩)
  else ([Char.ofNat 65533], ⟨0, 0, 0⟩)

/-- Feed one byte to the UTF-8 decoder; malformed, overlong, surrogate and
out-of-range sequences yield U+FFFD, as Node's UTF-8 decoding does. -/
def utf8Step (st : Utf8State) (b : Nat) : List Char × Utf8State :=
  if st.need = 0 then utf8Start b
  else if 128 ≤ b ∧ b < 192 then
    let p := st.pending * 64 + (b - 128)
    if st.need = 1 then
      if p < st.lowest ∨ (55296 ≤ p ∧ p < 57344) ∨ 1114111 < p then ([Char.ofNat 65533], ⟨0, 0, 0⟩)
      else ([Char.ofNat p], ⟨0, 0, 0⟩)
    else ([], ⟨st.need - 1, p, st.lowest⟩)
  else
    let s := utf8Start b
    (Char.ofNat 65533 :: s.1, s.2)

/-- Run the UTF-8 decoder over a byte list, flushing a trailing incomplete
sequence as U+FFFD. -/
def utf8Run : Utf8State → List Nat → List Char
  | st, [] => if st.need = 0 then [] else [Char.ofNat 65533]
  | st, b :: rest =>
    let s := utf8Step st b
    s.1 ++ utf8Run s.2 rest

/-- Model of `buffer.toString("utf8")`: ASCII bytes decode to themselves;
malformed material decodes with U+FFFD replacement. -/
def utf8Decode (l : List Nat) : List Char :=
  utf8Run ⟨0, 0, 0⟩ l

/-- Model of `buffer.toString()` (UTF-8 by default). -/
def bufToString (l : List Nat) : String :=
  String.mk (utf8Decode l)

namespace FrameDefinitions

/-- `FrameDefinitions.textFrames`: alias to v2.3 text-frame identifier, in
source order (a JavaScript object preserves string-key insertion order, so a
list of pairs is the faithful model; all keys are distinct). -/
def textFrames : List (String × String) :=
  [("album", "TALB"), ("bpm", "TBPM"), ("composer", "TCOM"), ("genre", "TCON"),
   ("copyright", "TCOP"), ("date", "TDAT"), ("playlistDelay", "TDLY"), ("encodedBy", "TENC"),
   ("textWriter", "TEXT"), ("fileType", "TFLT"), ("time", "TIME"), ("contentGroup", "TIT1"),
   ("title", "TIT2"), ("subtitle", "TIT3"), ("initialKey", "TKEY"), ("language", "TLAN"),
   ("length", "TLEN"), ("mediaType", "TMED"), ("originalTitle", "TOAL"),
   ("originalFilename", "TOFN"), ("originalTextwriter", "TOLY"), ("originalArtist", "TOPE"),
   ("originalYear", "TORY"), ("fileOwner", "TOWN"), ("artist", "TPE1"),
   ("performerInfo", "TPE2"), ("conductor", "TPE3"), ("remixArtist", "TPE4"),
   ("partOfSet", "TPOS"), ("publisher", "TPUB"), ("trackNumber", "TRCK"),
   ("recordingDates", "TRDA"), ("internetRadioName", "TRSN"), ("internetRadioOwner", "TRSO"),
   ("size", "TSIZ"), ("ISRC", "TSRC"), ("encodingTechnology", "TSSE"), ("year", "TYER")]

/-- `FrameDefinitions.textFramesV220`: alias to v2.2 text-frame identifier. -/
def textFramesV220 : List (String × String) :=
  [("album", "TAL"), ("bpm", "TBP"), ("composer", "TCM"), ("genre", "TCO"),
   ("copyright", "TCR"), ("date", "TDA"), ("playlistDelay", "TDY"), ("encodedBy", "TEN"),
   ("textWriter", "TXT"), ("fileType", "TFT"), ("time", "TIM"), ("contentGroup", "TT1"),
   ("title", "TT2"), ("subtitle", "TT3"), ("initialKey", "TKE"), ("language", "TLA"),
   ("length", "TLE"), ("mediaType", "TMT"), ("originalTitle", "TOT"),
   ("originalFilename", "TOF"), ("originalTextwriter", "TOL"), ("originalArtist", "TOA"),
   ("originalYear", "TOR"), ("artist", "TP1"), ("performerInfo", "TP2"),
   ("conductor", "TP3"), ("remixArtist", "TP4"), ("partOfSet", "TPA"),
   ("publisher", "TPB"), ("trackNumber", "TRK"), ("recordingDates", "TRD"),
   ("size", "TSI"), ("ISRC", "TRC"), ("encodingTechnology", "TSS"), ("year", "TYE")]

/-- `FrameDefinitions.specialFrames`. -/
def specialFrames : List (String × String) :=
  [("comment", "COMM"), ("image", "APIC"), ("unsynchronisedLyrics", "USLT"),
   ("userDefinedText", "TXXX")]

/-- `FrameDefinitions.specialFramesV220`. -/
def specialFramesV220 : List (String × String) :=
  [("image", "PIC")]

/-- JavaScript object assignment of one key/value pair: overwrite the value in
place when the key already exists (keeping its original position), else append
the pair.  Folding this over a pair list models both the object-spread merge
`{...a, ...b}` and `Object.fromEntries` (first-occurrence key order,
last-written value wins). -/
def objAssign : List (String × String) → String × String → List (String × String)
  | [], kv => [kv]
  | p :: rest, kv => if p.1 = kv.1 then (p.1, kv.2) :: rest else p :: objAssign rest kv

/-- The object-spread merge `{...t₁, ..., ...tₙ}` of string-keyed tables:
later tables overwrite the values of keys they share with earlier ones. -/
def spreadMerge (tables : List (List (String × String))) : List (String × String) :=
  tables.flatten.foldl objAssign []

/-- `flipObject` from `src/utils.ts`:
`Object.fromEntries(Object.entries(obj).map(([k, v]) => [v, k]))` -- swap
every pair, then rebuild an object (duplicate swapped keys would be
last-wins). -/
def flipObject (l : List (String × String)) : List (String × String) :=
  (l.map (fun p => (p.2, p.1))).foldl objAssign []

/-- `FrameDefinitions.convertNameToAlias`: flip the object-spread merge of the
four tables and look the identifier up.  The spread is last-wins on the shared
alias keys, so every alias that also exists in the v2.2 table holds its
3-letter identifier in the merge (`title ↦ TT2`, `image ↦ PIC`, ...): after
flipping, most 4-letter v2.3 identifiers (`TIT2`, `TALB`, `APIC`, ...) are
absent and resolve to `undefined` (`none`); only `COMM`, `USLT`, `TXXX` and
the three v2.3-only text identifiers `TOWN`, `TRSN`, `TRSO` keep an alias.
The identifier read from the buffer is kept as its byte list; since every
table identifier is ASCII, comparing the UTF-8 decodings (as the source does
via string keys) is exactly comparing the bytes with the identifier's UTF-8
bytes. -/
def convertNameToAlias (nameBytes : List Nat) : Option String :=
  ((flipObject (spreadMerge [textFrames, specialFrames, textFramesV220, specialFramesV220])).find?
      (fun p => utf8EncodeStr p.1 == nameBytes)).map (fun p => p.2)

/-- `FrameDefinitions.convertAliasToName`: lookup in the merge of the v2.3
text table and the special table (keys are distinct between the two). -/
def convertAliasToName (frameAlias : String) : Option String :=
  ((textFrames ++ specialFrames).find? (fun p => p.1 == frameAlias)).map (fun p => p.2)

/-- `FrameDefinitions.isTextFrame`: first character `T` and not `TXXX`. -/
def isTextFrame (frameName : String) : Bool :=
  frameName.data.headD '\x00' == 'T' && frameName != "TXXX"

/-- `FrameDefinitions.canHaveMultipleEntries` on the identifier bytes read
from the buffer: only `TXXX` repeats. -/
def canHaveMultipleEntries (nameBytes : List Nat) : Bool :=
  nameBytes == utf8EncodeStr "TXXX"

end FrameDefinitions

/-- `IUserDefinedTextFrame`: one user-defined text entry supplied to `write`. -/
structure IUserDefinedTextFrame where
  description : String
  value : String
  deriving DecidableEq

/-- `ISpecialTextFrame`: input for a comment / unsynchronised-lyrics frame.
`language` is optional in the interface; `shortText` and `text` are typed as
required strings but the encoder guards them with falsiness checks, so absent
values are representable too. -/
structure ISpecialTextFrame where
  text : Option String
  language : Option String
  shortText : Option String
  deriving DecidableEq

/-- The value attached to one property alias in the `IFrames` mapping passed
to `create`/`write`.  A single (non-array) user-defined entry is normalised to
a one-element array on the first line of `createUserDefinedTextFrame`, so the
list form covers both input shapes. -/
inductive InValue where
  | text (s : String)
  | special (d : ISpecialTextFrame)
  | image (bytes : List Nat)
  | userDefined (entries : List IUserDefinedTextFrame)
  deriving DecidableEq

/-- `IFrames`: the property mapping, as `Object.entries` enumerates it --
alias/value pairs in insertion order, aliases pairwise distinct. -/
abbrev IFrames : Type := List (String × InValue)

/-- One decoded user-defined text record: `{description, value}`, or the empty
record `{}` from the decoder's unterminated branch. -/
inductive UDRecord where
  | mk (description value : String)
  | emptyRec
  deriving DecidableEq

/-- A value of the decoded property mapping returned by `read`. -/
inductive OutValue where
  | text (s : String)
  | specialText (language shortText text : String)
  | emptyRecord
  | image (bytes : List Nat)
  | userDefined (entries : List UDRecord)
  deriving DecidableEq

/-- The decoded property mapping: string keys (an unresolved identifier is
assigned under the literal key `"undefined"`, because JavaScript coerces an
`undefined` property key to that string) in insertion order. -/
abbrev DecodedFrames : Type := List (String × OutValue)

namespace FrameEncoder

/-- The language code used by `createSpecialTextFrame`: the literal `eng` when
no language is supplied, otherwise `language.substring(0, 3)`. -/
def languageCode (language : Option String) : String :=
  match language with
  | none => "eng"
  | some l => jsSubstring l 0 3

/-- The language field bytes of `createSpecialTextFrame`:
`Buffer.from(languageCode)`, i.e. the UTF-8 bytes of the (truncated) code. -/
def languageBuffer (language : Option String) : List Nat :=
  utf8EncodeStr (languageCode language)

/-- `FrameEncoder.createTextFrame`: 10-byte header (identifier at offset 0,
`writeUInt32BE(encoded.length + 1)` at offset 4), then the `0x01` encoding
byte, then the `iconv` utf16 encoding of the value.  `writeUInt32BE` throws
when its value does not fit 32 bits, modelled as `none`. -/
def createTextFrame (frameName : String) (frameValue : String) : Option (List Nat) :=
  let encoded := utf16Encode frameValue
  if encoded.length + 1 < 4294967296 then
    some (bufWrite (bufWrite (List.replicate 10 0) 0 (utf8EncodeStr frameName)) 4
            (uint32BE (encoded.length + 1)) ++ [1] ++ encoded)
  else none

/-- `FrameEncoder.createSpecialTextFrame`: encoding byte `0x01`, then (except
for `TXXX`) the language field, then the content descriptor (a bare utf16
terminator when `shortText` is falsy, else the utf16 text plus two zero
bytes), then the utf16 main text (`data.text || ""`); the header's size field
is the total length of those parts. -/
def createSpecialTextFrame (frameName : String) (data : ISpecialTextFrame) :
    Option (List Nat) :=
  let encodingBuffer : List Nat := [1]
  let langBuffers : List (List Nat) :=
    if frameName ≠ "TXXX" then [languageBuffer data.language] else []
  let contentDescriptorBuffer : List Nat :=
    match data.shortText with
    | none => utf16Encode "\x00"
    | some s => if s = "" then utf16Encode "\x00" else utf16Encode s ++ [0, 0]
  let textBuffer : List Nat :=
    utf16Encode (match data.text with | none => "" | some t => t)
  let buffers := encodingBuffer :: (langBuffers ++ [contentDescriptorBuffer, textBuffer])
  let size := (buffers.map List.length).sum
  if size < 4294967296 then
    some (bufWrite (bufWrite (List.replicate 10 0) 0 (utf8EncodeStr frameName)) 4
            (uint32BE size) ++ buffers.flatten)
  else none

/-- `FrameEncoder.createUserDefinedTextFrame`: one `createSpecialTextFrame`
per entry (with `language: undefined`, `shortText: description`,
`text: value`), concatenated; an empty entry list leaves the buffer
`undefined`, modelled as `some none` (skipped by `encodeFrames`), while a
thrown size-overflow is the outer `none`. -/
def createUserDefinedTextFrame (entries : List IUserDefinedTextFrame) :
    Option (Option (List Nat)) :=
  match entries with
  | [] => some none
  | _ =>
    let frames := entries.map (fun e =>
      createSpecialTextFrame "TXXX" ⟨some e.value, none, some e.description⟩)
    if frames.all Option.isSome then
      some (some ((frames.map (fun f => f.getD [])).flatten))
    else none

/-- `FrameEncoder.createImageFrame`: MIME type sniffed from the first three
bytes (`FF D8 FF` is JPEG, anything else PNG); content block
`[0x00, mime bytes, 0x00, 0x03, 0x00]`; header size field is image length
plus content length. -/
def createImageFrame (apicData : List Nat) : Option (List Nat) :=
  let mimeType : String :=
    if apicData.getD 0 0 == 255 && apicData.getD 1 0 == 216 && apicData.getD 2 0 == 255 then
      "image/jpeg"
    else "image/png"
  let bContent :=
    bufWrite (bufWrite (List.replicate (mimeType.length + 4) 0) 1 (utf8EncodeStr mimeType))
      (mimeType.length + 2) [3]
  if apicData.length + bContent.length < 4294967296 then
    some (bufWrite (bufWrite (List.replicate 10 0) 0 (utf8EncodeStr "APIC")) 4
            (uint32BE (apicData.length + bContent.length)) ++ bContent ++ apicData)
  else none

/-- `FrameEncoder.createSpecialFrame`: dispatch on the identifier.  Outer
`none` is a thrown exception; inner `none` is the `undefined` return that
`encodeFrames` silently skips.  A value whose shape does not match the
identifier is unrepresentable under the `IFrames` interface and is mapped to
the exceptional case. -/
def createSpecialFrame (frameName : String) (frameValue : InValue) :
    Option (Option (List Nat)) :=
  if frameName = "COMM" then
    match frameValue with
    | InValue.special d => (createSpecialTextFrame "COMM" d).map some
    | _ => none
  else if frameName = "APIC" then
    match frameValue with
    | InValue.image b => (createImageFrame b).map some
    | _ => none
  else if frameName = "USLT" then
    match frameValue with
    | InValue.special d => (createSpecialTextFrame "USLT" d).map some
    | _ => none
  else if frameName = "TXXX" then
    match frameValue with
    | InValue.userDefined l => createUserDefinedTextFrame l
    | _ => none
  else some none

/-- `FrameEncoder.encodeFrames`: convert each alias, encode a text frame or a
special frame, collect the buffers in order.  An alias that resolves to no
identifier makes `isTextFrame(undefined)` raise a `TypeError` in the source
(`frameName[0]` on `undefined`), modelled as `none`; the `IFrames` interface
only admits the recognised aliases, so typed callers never reach it. -/
def encodeFrames : List (String × InValue) → Option (List (List Nat))
  | [] => some []
  | (frameAlias, frameValue) :: rest =>
    match FrameDefinitions.convertAliasToName frameAlias with
    | none => none
    | some frameName =>
      if FrameDefinitions.isTextFrame frameName then
        match frameValue with
        | InValue.text s =>
          match createTextFrame frameName s, encodeFrames rest with
          | some f, some fs => some (f :: fs)
          | _, _ => none
        | _ => none
      else
        match createSpecialFrame frameName frameValue, encodeFrames rest with
        | some (some f), some fs => some (f :: fs)
        | some none, some fs => some fs
        | _, _ => none

end FrameEncoder

namespace FrameDecoder

/-- The result of `readSpecialFrame` for one frame, before it is merged into
the decoded mapping. -/
inductive SpecialResult where
  | specialText (language shortText text : String)
  | specialEmpty
  | image (bytes : List Nat)
  | ud (r : UDRecord)
  deriving DecidableEq

/-- The exit index of the decoder's utf16 terminator scan
`for(i; data[i] !== undefined && data[i] !== 0x00 || data[i+1] !== 0x00 || data[i+2] === 0x00; i++);`:
the least `i` with `data[i] = 0`, `data[i+1]` an in-range 0, and `data[i+2]`
nonzero or out of range.  When no such index exists the source loop never
terminates (the out-of-range `data[i+1] !== 0x00` comparison stays true past
the end); that state is `none` here, and the scan's callers then take the
source's unreachable `return {}` arm.  No theorem depends on that case. -/
def scanExit (data : List Nat) : Option Nat :=
  (List.range data.length).find? (fun i =>
    data.getD i 1 == 0 && decide (i + 1 < data.length) && data.getD (i + 1) 1 == 0 &&
      (decide (data.length ≤ i + 2) || data.getD (i + 2) 0 != 0))

/-- `FrameDecoder.readSpecialTextFrame` (comment / unsynchronised lyrics):
the ISO branch slices the Latin-1 decoding of the whole payload around the
first zero byte at index ≥ 1; the utf16 branch reads the language from the
UTF-8 `toString()` of the payload, and splits short text / text at the
terminator-scan exit; any other leading byte yields the empty record. -/
def readSpecialTextFrame (data : List Nat) : SpecialResult :=
  if data.headD 1 == 0 then
    let s := decodeISO data
    let t := jsIndexOfFrom data 0 1
    SpecialResult.specialText
      (stripNulls (jsSubstring s 1 4))
      (stripNulls (jsSubstring s 4 t))
      (stripNulls (jsSubstringFrom s (t + 1)))
  else if data.headD 0 == 1 then
    match scanExit data with
    | none => SpecialResult.specialEmpty
    | some i =>
      SpecialResult.specialText
        (stripNulls (jsSubstring (bufToString data) 1 4))
        (stripNulls (decodeUTF16Bytes ((data.take i).drop 4)))
        (stripNulls (decodeUTF16Bytes (data.drop (i + 2))))
  else SpecialResult.specialEmpty

/-- `FrameDecoder.readImageFrame`: compute the description end offset and
return `data.slice(descEnd === 0 ? descEnd + 1 : 5)`. -/
def readImageFrame (data : List Nat) (version : Nat) : List Nat :=
  let descOffset : Int := if version = 2 then 5 else jsIndexOfFrom data 0 1 + 2
  let descEnd : Int :=
    if data.headD 1 == 0 then
      jsIndexOfFrom data 0 descOffset.toNat
    else
      descOffset + indexOfDoubleZero (data.drop descOffset.toNat) + 2
  data.drop (if descEnd = 0 then 1 else 5)

/-- `FrameDecoder.readUserDefinedTextFrame`: like the special text frame but
with `{description, value}` split at the first terminator; a leading byte
other than `0x00`/`0x01` returns `undefined` (`none`), which the caller
skips. -/
def readUserDefinedTextFrame (data : List Nat) : Option UDRecord :=
  if data.headD 1 == 0 then
    let s := decodeISO data
    let t := jsIndexOfFrom data 0 1
    some (UDRecord.mk (stripNulls (jsSubstring s 1 t)) (stripNulls (jsSubstringFrom s (t + 1))))
  else if data.headD 0 == 1 then
    match scanExit data with
    | none => some UDRecord.emptyRec
    | some i =>
      some (UDRecord.mk (stripNulls (decodeUTF16Bytes ((data.take i).drop 1)))
        (stripNulls (decodeUTF16Bytes (data.drop (i + 2)))))
  else none

/-- `FrameDecoder.readSpecialFrame`: dispatch on the identifier bytes; an
unrecognised identifier decodes to `undefined` (`none`) and contributes
nothing. -/
def readSpecialFrame (nameBytes : List Nat) (data : List Nat) (version : Nat) :
    Option SpecialResult :=
  if nameBytes = utf8EncodeStr "COMM" then some (readSpecialTextFrame data)
  else if nameBytes = utf8EncodeStr "PIC" ∨ nameBytes = utf8EncodeStr "APIC" then
    some (SpecialResult.image (readImageFrame data version))
  else if nameBytes = utf8EncodeStr "USLT" then some (readSpecialTextFrame data)
  else if nameBytes = utf8EncodeStr "TXXX" then
    (readUserDefinedTextFrame data).map SpecialResult.ud
  else none

/-- JavaScript object assignment `obj[key] = v`: replace in place when the key
exists, else append. -/
def setKey : DecodedFrames → String → OutValue → DecodedFrames
  | [], k, v => [(k, v)]
  | (k', v') :: rest, k, v =>
    if k' = k then (k', v) :: rest else (k', v') :: setKey rest k v

/-- `FrameDecoder.decodeFrames`, processing the scanned `(identifier bytes,
payload)` records in order into the decoded mapping.  A plain text frame is
one whose identifier starts with byte `T` and is not `TXXX` (for the ASCII
table identifiers this byte test is exactly the source's string test); the
repeatable `TXXX` accumulates into a list at its alias.  The `version`
argument only reaches the image decoder. -/
def decodeFrames (version : Nat) : List (List Nat × List Nat) → DecodedFrames → DecodedFrames
  | [], acc => acc
  | (nameBytes, body) :: rest, acc =>
    let acc' :=
      if nameBytes.headD 0 == 84 && nameBytes != utf8EncodeStr "TXXX" then
        let decoded :=
          stripNulls (if body.headD 0 == 1 then decodeUTF16Bytes (body.drop 1)
            else decodeISO (body.drop 1))
        setKey acc ((FrameDefinitions.convertNameToAlias nameBytes).getD "undefined")
          (OutValue.text decoded)
      else
        match readSpecialFrame nameBytes body version with
        | none => acc
        | some r =>
          let key := (FrameDefinitions.convertNameToAlias nameBytes).getD "undefined"
          if FrameDefinitions.canHaveMultipleEntries nameBytes then
            match r with
            | SpecialResult.ud rec =>
              match acc.lookup key with
              | some (OutValue.userDefined l) => setKey acc key (OutValue.userDefined (l ++ [rec]))
              | none => setKey acc key (OutValue.userDefined [rec])
              | some _ => acc
            | _ => acc
          else
            match r with
            | SpecialResult.specialText lang st t => setKey acc key (OutValue.specialText lang st t)
            | SpecialResult.specialEmpty => setKey acc key OutValue.emptyRecord
            | SpecialResult.image b => setKey acc key (OutValue.image b)
            | SpecialResult.ud rec =>
              setKey acc key (OutValue.userDefined [rec])
    decodeFrames version rest acc'

end FrameDecoder

namespace NodeID3

/-- `NodeID3.decodeSize`: `(b0 << 21) + (b1 << 14) + (b2 << 7) + b3`.  The
shifts are exact on byte values, so plain multiplication is the model; a
missing byte (`undefined`) is coerced to 0 by the shift, which `getD _ _ 0`
matches. -/
def decodeSize (buffer : List Nat) : Nat :=
  (buffer.getD 0 0) * 2 ^ 21 + (buffer.getD 1 0) * 2 ^ 14 +
    (buffer.getD 2 0) * 2 ^ 7 + (buffer.getD 3 0)

/-- The synchsafe size encoding used by `create`:
`[(n >> 21) & 0x7F, (n >> 14) & 0x7F, (n >> 7) & 0x7F, n & 0x7F]`.  On the
nonnegative values below 2^31 that a tag body length can take, JavaScript's
32-bit `>>`/`&` agree with division and remainder by the matching powers of
two. -/
def encodeSize (totalSize : Nat) : List Nat :=
  [totalSize / 2 ^ 21 % 2 ^ 7, totalSize / 2 ^ 14 % 2 ^ 7,
   totalSize / 2 ^ 7 % 2 ^ 7, totalSize % 2 ^ 7]

/-- Whether the bytes `I D 3` (`0x49 0x44 0x33`) occur at offset `i`. -/
def isMarkerAt (l : List Nat) (i : Nat) : Bool :=
  match l.drop i with
  | a :: b :: c :: _ => a == 73 && b == 68 && c == 51
  | _ => false

/-- Model of `buffer.indexOf("ID3")`: the first offset holding the marker. -/
def indexOfID3 : List Nat → Option Nat
  | [] => none
  | b :: rest =>
    if isMarkerAt (b :: rest) 0 then some 0
    else (indexOfID3 rest).map (· + 1)

/-- Whether the marker occurs at some offset below `k`. -/
def markerWithin (l : List Nat) (k : Nat) : Bool :=
  (List.range k).any (fun i => isMarkerAt l i)

/-- `NodeID3.getFramePosition`: the marker offset, rejected (treated as not
found, source value `-1`, here `none`) when there is no occurrence or the
first occurrence is at an offset greater than 20. -/
def getFramePosition (buffer : List Nat) : Option Nat :=
  match indexOfID3 buffer with
  | none => none
  | some p => if 20 < p then none else some p

/-- `NodeID3.create`: a 10-byte header (`ID3`, version bytes `03 00`, flag
bytes `00 00`) followed by the encoded frames; the synchsafe size of the
frame bytes (total length minus the 10-byte header) is patched into header
offsets 6..9.  `none` is a raised exception from frame encoding. -/
def create (frames : List (String × InValue)) : Option (List Nat) :=
  match FrameEncoder.encodeFrames frames with
  | none => none
  | some frameBuffers =>
    let header :=
      bufWrite (bufWrite (bufWrite (List.replicate 10 0) 0 (utf8EncodeStr "ID3")) 3 [3, 0])
        5 [0, 0]
    let totalSize := (header.length + (frameBuffers.map List.length).sum) - 10
    some (bufWrite header 6 (encodeSize totalSize) ++ frameBuffers.flatten)

/-- The frame-scanning loop of `NodeID3.read`, returning `(identifier bytes,
payload)` records in scan order.  Each iteration advances the position by the
frame header size (6 or 10) plus the declared payload size, so the loop makes
at most `frameSize` iterations; the fuel argument is initialised to
`frameSize + 1` by `read` and therefore never runs out.  A record whose
declared size exceeds the space check `frameSize - currentPosition` ends the
scan, keeping the records already produced and dropping that record. -/
def readLoop (version frameSize : Nat) (body : List Nat) :
    Nat → Nat → List (List Nat × List Nat)
  | 0, _ => []
  | fuel + 1, currentPosition =>
    if currentPosition < frameSize - 10 ∧ body.getD currentPosition 0 ≠ 0 then
      let textframeHeaderSize := if version = 2 then 6 else 10
      let identifierSize := if version = 2 then 3 else 4
      let bodyFrameHeader := zeroPad textframeHeaderSize ((body.drop currentPosition).take textframeHeaderSize)
      let frameSizeBytes :=
        if 2 < version then
          [bodyFrameHeader.getD 4 0, bodyFrameHeader.getD 5 0,
           bodyFrameHeader.getD 6 0, bodyFrameHeader.getD 7 0]
        else
          [bodyFrameHeader.getD 3 0, bodyFrameHeader.getD 4 0, bodyFrameHeader.getD 5 0]
      let bodyFrameSize :=
        if version = 4 then decodeSize frameSizeBytes else readUIntBE frameSizeBytes
      if bodyFrameSize > frameSize - currentPosition then []
      else
        let bodyFrameBuffer :=
          zeroPad bodyFrameSize ((body.drop (currentPosition + textframeHeaderSize)).take bodyFrameSize)
        (bodyFrameHeader.take identifierSize, bodyFrameBuffer) ::
          readLoop version frameSize body fuel (currentPosition + bodyFrameSize + textframeHeaderSize)
    else []

/-- `NodeID3.read` (buffer variant): locate the tag (empty mapping when there
is none), decode the header's synchsafe size, copy the tag body into a buffer
allocated with `frameSize - 10 + 1` bytes -- which raises a `RangeError`
(`none` here) whenever `frameSize ≤ 8`, because `Buffer.alloc` rejects a
negative size -- scan the frames and decode them. -/
def read (bufferToRead : List Nat) : Option DecodedFrames :=
  match getFramePosition bufferToRead with
  | none => some []
  | some framePosition =>
    let sizeBuffer := (bufferToRead.drop framePosition).take 10
    let frameSize := decodeSize
      [sizeBuffer.getD 6 0, sizeBuffer.getD 7 0, sizeBuffer.getD 8 0, sizeBuffer.getD 9 0]
    if frameSize < 9 then none
    else
      let ID3Frame := zeroPad (frameSize + 1) ((bufferToRead.drop framePosition).take (frameSize + 1))
      let ID3FrameBody :=
        zeroPad (frameSize - 9) ((bufferToRead.drop (framePosition + 10)).take (frameSize - 9))
      let ID3Version := ID3Frame.getD 3 0
      let frames := readLoop ID3Version frameSize ID3FrameBody (frameSize + 1) 0
      some (FrameDecoder.decodeFrames ID3Version frames [])

/-- `NodeID3.remove` (buffer variant): the input unchanged when no tag is
located; the source's explicit failure value `false` (here `none`) when any of
the four size-header bytes has bit 7 set; otherwise the suffix after the
decoded tag extent.  This function raises no exception. -/
def remove (data : List Nat) : Option (List Nat) :=
  match getFramePosition data with
  | none => some data
  | some ID3Offset =>
    let hSize := [data.getD (ID3Offset + 6) 0, data.getD (ID3Offset + 7) 0,
                  data.getD (ID3Offset + 8) 0, data.getD (ID3Offset + 9) 0]
    if Nat.land (Nat.lor (Nat.lor (Nat.lor (hSize.getD 0 0) (hSize.getD 1 0)) (hSize.getD 2 0))
        (hSize.getD 3 0)) 128 ≠ 0 then none
    else some (data.drop (ID3Offset + decodeSize hSize + 10))

/-- `NodeID3.write` (buffer variant):
`Buffer.concat([this.create(frames), this.remove(currentData)])`.  When
`create` raises, or `remove` returns its failure value `false` (making
`Buffer.concat` throw a `TypeError`), the call raises (`none`). -/
def write (fileBuffer : List Nat) (frames : List (String × InValue)) : Option (List Nat) :=
  match create frames, remove fileBuffer with
  | some created, some removed => some (created ++ removed)
  | _, _ => none

end NodeID3

/-! Helper lemmas about the buffer primitives. -/

theorem bufWrite_length (base bytes : List Nat) (pos : Nat) (h : pos ≤ base.length) :
    (bufWrite base pos bytes).length = base.length := by
  simp only [bufWrite, List.length_append, List.length_take, List.length_drop]
  omega

theorem bufWrite_getD (base bytes : List Nat) (pos i : Nat)
    (h1 : pos + bytes.length ≤ base.length) (h2 : i < bytes.length) :
    (bufWrite base pos bytes).getD (pos + i) 0 = bytes.getD i 0 := by
  unfold bufWrite
  have hmid : bytes.take (base.length - pos) = bytes := List.take_of_length_le (by omega)
  rw [hmid]
  rw [List.getD_append _ _ _ _
    (by rw [List.length_append, List.length_take]; omega)]
  rw [List.getD_append_right _ _ _ _ (by rw [List.length_take]; omega)]
  rw [List.length_take]
  have hidx : pos + i - min pos base.length = i := by omega
  rw [hidx]

theorem isMarkerAt_cons_succ (b : Nat) (rest : List Nat) (q : Nat) :
    NodeID3.isMarkerAt (b :: rest) (q + 1) = NodeID3.isMarkerAt rest q := by
  simp [NodeID3.isMarkerAt]

theorem indexOfID3_isMarkerAt (l : List Nat) (p : Nat)
    (h : NodeID3.indexOfID3 l = some p) : NodeID3.isMarkerAt l p = true := by
  induction l generalizing p with
  | nil => simp [NodeID3.indexOfID3] at h
  | cons b rest ih =>
    unfold NodeID3.indexOfID3 at h
    by_cases hm : NodeID3.isMarkerAt (b :: rest) 0
    · rw [if_pos hm] at h
      cases h
      exact hm
    · rw [if_neg hm] at h
      cases hq : NodeID3.indexOfID3 rest with
      | none => rw [hq] at h; cases h
      | some q =>
        rw [hq] at h
        cases h
        rw [isMarkerAt_cons_succ]
        exact ih q hq

theorem getFramePosition_eq_none (b : List Nat)
    (h : NodeID3.markerWithin b 21 = false) : NodeID3.getFramePosition b = none := by
  unfold NodeID3.getFramePosition
  cases hq : NodeID3.indexOfID3 b with
  | none => rfl
  | some p =>
    have hm := indexOfID3_isMarkerAt b p hq
    have hp : 20 < p := by
      by_contra hle
      push_neg at hle
      have htrue : NodeID3.markerWithin b 21 = true := by
        unfold NodeID3.markerWithin
        rw [List.any_eq_true]
        exact ⟨p, List.mem_range.mpr (by omega), hm⟩
      rw [htrue] at h
      cases h
    simp [hp]

theorem utf8_flatMap_length_of_ascii (l : List Char)
    (h : l.all (fun c => c.toNat < 128) = true) :
    (l.flatMap utf8EncodeChar).length = l.length := by
  induction l with
  | nil => rfl
  | cons c cs ih =>
    rw [List.all_cons, Bool.and_eq_true] at h
    have hc : (utf8EncodeChar c).length = 1 := by
      unfold utf8EncodeChar
      rw [if_pos (by simpa using h.1)]
      rfl
    simp [List.flatMap_cons, List.length_append, hc, ih h.2]
    omega

/-! The claims. -/

/-- C1: the claim states `read(create(m)) == m` for mappings of single-valued
plain-text aliases with ASCII values.  The code violates it twice over: `read`
copies the tag body into a buffer allocated with `frameSize - 10 + 1` bytes
although the body holds `frameSize` bytes, so the tail of the body (here the
text frame's size byte and payload) is lost and the text reads back empty; and
`convertNameToAlias`'s last-wins spread merge leaves no `TIT2` key in the
flipped table, so the decoded value is stored under the coerced property key
`"undefined"` rather than under `title`.  This theorem evaluates the code at
the failing input `m = [title ↦ "A"]`. -/
theorem C1_read_create_title_mangled :
    (NodeID3.create [("title", InValue.text "A")]).bind NodeID3.read
      = some [("undefined", OutValue.text "")] := by
  decide

/-- C2: for every `n` below 2^28, decoding the 4-byte synchsafe encoding of
`n` returns `n`, and every encoded byte has its high bit clear. -/
theorem C2_synchsafe_size_roundtrip (n : Nat) (h : n < 2 ^ 28) :
    NodeID3.decodeSize (NodeID3.encodeSize n) = n ∧
      (NodeID3.encodeSize n).all (fun b => b < 128) = true := by
  constructor
  · simp only [NodeID3.decodeSize, NodeID3.encodeSize, List.getD_cons_zero,
      List.getD_cons_succ]
    norm_num
    omega
  · simp only [NodeID3.encodeSize, List.all_cons, List.all_nil, Bool.and_eq_true,
      decide_eq_true_eq]
    norm_num
    omega

/-- Witness for C2 at `n = 200000000`. -/
theorem C2_synchsafe_size_roundtrip_witness :
    200000000 < 2 ^ 28 ∧
      (NodeID3.decodeSize (NodeID3.encodeSize 200000000) = 200000000 ∧
        (NodeID3.encodeSize 200000000).all (fun b => b < 128) = true) :=
  ⟨by norm_num, C2_synchsafe_size_roundtrip 200000000 (by norm_num)⟩

/-- C3: the claim states that the buffer-variant `read` is total and returns
an empty mapping when the located tag's body is empty.  The code violates it:
on the canonical empty tag `ID3 03 00 00` with size bytes `00 00 00 00`,
`Buffer.alloc(frameSize - 10 + 1)` is `Buffer.alloc(-9)`, which raises a
`RangeError` (modelled as `none`) instead of returning the empty mapping. -/
theorem C3_read_empty_tag_raises :
    NodeID3.read [73, 68, 51, 3, 0, 0, 0, 0, 0, 0] = none := by
  decide

/-- C4 counterexample: on a source whose located tag has a size byte with the
high bit set, `remove` returns its failure value `false`, and
`Buffer.concat([create(properties), false])` raises a `TypeError`; `write`
therefore returns no concatenation at all even though `create` succeeds. -/
theorem C4_write_concat_cex :
    NodeID3.write [73, 68, 51, 3, 0, 0, 128, 0, 0, 0] [] = none ∧
      (NodeID3.create []).isSome = true := by
  decide

/-- C4 amended: whenever `create(properties)` succeeds and `remove(source)`
returns a buffer (that is, the located tag's size bytes are valid), the
buffer-variant `write` returns exactly their concatenation; when `remove`
signals failure, `write` raises instead of returning a buffer. -/
theorem C4_write_concat_amended (fileBuffer : List Nat) (frames : List (String × InValue))
    (c r : List Nat) (hc : NodeID3.create frames = some c)
    (hr : NodeID3.remove fileBuffer = some r) :
    NodeID3.write fileBuffer frames = some (c ++ r) := by
  unfold NodeID3.write
  rw [hc, hr]

/-- Witness for C4 on the tag-free source `[1, 2, 3]` and the empty mapping. -/
theorem C4_write_concat_witness :
    NodeID3.create [] = some [73, 68, 51, 3, 0, 0, 0, 0, 0, 0] ∧
      NodeID3.remove [1, 2, 3] = some [1, 2, 3] ∧
      NodeID3.write [1, 2, 3] [] = some ([73, 68, 51, 3, 0, 0, 0, 0, 0, 0] ++ [1, 2, 3]) :=
  ⟨by decide, by decide,
    C4_write_concat_amended [1, 2, 3] [] [73, 68, 51, 3, 0, 0, 0, 0, 0, 0] [1, 2, 3]
      (by decide) (by decide)⟩

/-- C5: on a buffer in which no tag is located, `remove` returns the content
unchanged; on a buffer whose located tag has a size-header byte with bit 7
set, `remove` returns its failure signal (`return false`, modelled `none`) --
it neither raises nor truncates. -/
theorem C5_remove_failure_and_unchanged (data : List Nat) :
    (NodeID3.getFramePosition data = none → NodeID3.remove data = some data) ∧
    (∀ p, NodeID3.getFramePosition data = some p →
      Nat.land (Nat.lor (Nat.lor (Nat.lor (data.getD (p + 6) 0) (data.getD (p + 7) 0))
        (data.getD (p + 8) 0)) (data.getD (p + 9) 0)) 128 ≠ 0 →
      NodeID3.remove data = none) := by
  constructor
  · intro h
    unfold NodeID3.remove
    rw [h]
  · intro p hp hbad
    unfold NodeID3.remove
    rw [hp]
    simp only [List.getD_cons_zero, List.getD_cons_succ]
    rw [if_pos hbad]

/-- Witness for C5: the no-tag clause at `[1, 2, 3]` and the invalid-size
clause at a tag whose first size byte is `0x80`. -/
theorem C5_remove_failure_and_unchanged_witness :
    NodeID3.remove [1, 2, 3] = some [1, 2, 3] ∧
      NodeID3.remove [73, 68, 51, 3, 0, 0, 128, 0, 0, 0] = none :=
  ⟨(C5_remove_failure_and_unchanged [1, 2, 3]).1 (by decide),
    (C5_remove_failure_and_unchanged [73, 68, 51, 3, 0, 0, 128, 0, 0, 0]).2 0
      (by decide) (by decide)⟩

/-- C6 counterexample: a buffer whose first 20 bytes (offsets 0..19) contain
no `ID3` marker but which carries a tag whose marker starts at offset 20.
`getFramePosition` accepts offsets up to and including 20 (`framePosition >
20` is the rejection test), so the tag is located: `remove` strips it instead
of returning the input unchanged (and `read`, for this size-0 tag, raises
rather than returning the empty mapping), refuting the claim as stated. -/
theorem C6_absence_safety_cex :
    NodeID3.markerWithin (List.replicate 20 255 ++ [73, 68, 51, 3, 0, 0, 0, 0, 0, 0]) 20
        = false ∧
      NodeID3.remove (List.replicate 20 255 ++ [73, 68, 51, 3, 0, 0, 0, 0, 0, 0])
        ≠ some (List.replicate 20 255 ++ [73, 68, 51, 3, 0, 0, 0, 0, 0, 0]) ∧
      NodeID3.read (List.replicate 20 255 ++ [73, 68, 51, 3, 0, 0, 0, 0, 0, 0])
        ≠ some [] := by
  decide

/-- C6 amended: for every buffer with no `ID3` marker starting within its
first 21 bytes (start offset at most 20), `read` returns the empty mapping and
`remove` returns the input unchanged; equivalently, tag location only ever
succeeds for a marker whose start offset is at most 20. -/
theorem C6_absence_safety_amended (b : List Nat)
    (h : NodeID3.markerWithin b 21 = false) :
    NodeID3.read b = some [] ∧ NodeID3.remove b = some b := by
  have hpos := getFramePosition_eq_none b h
  constructor
  · unfold NodeID3.read
    rw [hpos]
  · unfold NodeID3.remove
    rw [hpos]

/-- Witness for C6 at the marker-free buffer `[5, 5, 5]`. -/
theorem C6_absence_safety_witness :
    NodeID3.markerWithin [5, 5, 5] 21 = false ∧
      (NodeID3.read [5, 5, 5] = some [] ∧ NodeID3.remove [5, 5, 5] = some [5, 5, 5]) :=
  ⟨by decide, C6_absence_safety_amended [5, 5, 5] (by decide)⟩

/-- C7 counterexample: two stacked empty tags.  The first removal strips only
the first tag and returns the second one; the second removal strips that tag
too, so `remove(remove(x)) ≠ remove(x)`. -/
theorem C7_remove_idempotent_cex :
    (NodeID3.remove ([73, 68, 51, 3, 0, 0, 0, 0, 0, 0] ++ [73, 68, 51, 3, 0, 0, 0, 0, 0, 0])).bind
        NodeID3.remove
      ≠ NodeID3.remove ([73, 68, 51, 3, 0, 0, 0, 0, 0, 0] ++ [73, 68, 51, 3, 0, 0, 0, 0, 0, 0]) := by
  decide

/-- C7 amended: `remove(remove(x)) = remove(x)` holds whenever the first
removal returns a buffer in which no further tag is located (in particular for
any input without stacked tags); with stacked tags the second application
strips another tag. -/
theorem C7_remove_idempotent_amended (x y : List Nat)
    (h1 : NodeID3.remove x = some y) (h2 : NodeID3.getFramePosition y = none) :
    (NodeID3.remove x).bind NodeID3.remove = NodeID3.remove x := by
  rw [h1, Option.some_bind]
  unfold NodeID3.remove
  rw [h2]

/-- Witness for C7 at the tag-free buffer `[1, 2, 3]`. -/
theorem C7_remove_idempotent_witness :
    NodeID3.remove [1, 2, 3] = some [1, 2, 3] ∧
      (NodeID3.remove [1, 2, 3]).bind NodeID3.remove = NodeID3.remove [1, 2, 3] :=
  ⟨by decide, C7_remove_idempotent_amended [1, 2, 3] [1, 2, 3] (by decide) (by decide)⟩

/-- C8: the claim states that writing the two `userDefinedText` entries
`(a, 1)` and `(b, 2)` and reading back yields those two entries in order.
Encode does emit one full `TXXX` frame per entry in order, and read-back does
yield a 2-element sequence in encounter order, but the same 9-byte body
truncation as in C1 corrupts the second frame: its payload is cut after the
encoding byte and one `0xFF`, so the second entry reads back as
`{description: "ÿ", value: ""}` instead of `{description: "b", value: "2"}`.
This theorem evaluates the code at the claim's own input. -/
theorem C8_userdefined_roundtrip_mangled :
    (NodeID3.create
        [("userDefinedText", InValue.userDefined
          [IUserDefinedTextFrame.mk "a" "1", IUserDefinedTextFrame.mk "b" "2"])]).bind
        NodeID3.read
      = some [("userDefinedText",
          OutValue.userDefined [UDRecord.mk "a" "1", UDRecord.mk "ÿ" ""])] := by
  decide

/-- C9 counterexample: the claim states the emitted language field never
exceeds 3 bytes regardless of the input.  The source truncates to 3 UTF-16
characters and then UTF-8-encodes them (`Buffer.from`), so the 3-character
language `ééé` produces a 6-byte field. -/
theorem C9_language_field_cex :
    ¬ (FrameEncoder.languageBuffer (some "ééé")).length ≤ 3 := by
  decide

/-- C9 amended: an absent language encodes as the literal `eng`; a supplied
language is truncated to its first 3 characters (`substring(0, 3)`), so the
field never exceeds 3 characters -- and never exceeds 3 bytes when those
characters are ASCII. -/
theorem C9_language_field_amended (language : Option String) :
    (FrameEncoder.languageCode language).data.length ≤ 3 ∧
    (language = none → FrameEncoder.languageCode language = "eng") ∧
    (∀ l, language = some l → FrameEncoder.languageCode language = jsSubstring l 0 3) ∧
    ((FrameEncoder.languageCode language).data.all (fun c => c.toNat < 128) = true →
      (FrameEncoder.languageBuffer language).length ≤ 3) := by
  have hlen : (FrameEncoder.languageCode language).data.length ≤ 3 := by
    cases language with
    | none => decide
    | some l =>
      simp only [FrameEncoder.languageCode, jsSubstring]
      refine le_trans (List.length_take_le _ _) ?_
      omega
  refine ⟨hlen, ?_, ?_, ?_⟩
  · intro h
    rw [h]
    rfl
  · intro l h
    rw [h]
    rfl
  · intro hascii
    unfold FrameEncoder.languageBuffer utf8EncodeStr
    rw [utf8_flatMap_length_of_ascii _ hascii]
    exact hlen

/-- Witness for C9 at an absent language and at the ASCII language
`english`. -/
theorem C9_language_field_witness :
    FrameEncoder.languageCode none = "eng" ∧
      (FrameEncoder.languageBuffer (some "english")).length ≤ 3 :=
  ⟨(C9_language_field_amended none).2.1 rfl,
    (C9_language_field_amended (some "english")).2.2.2 (by decide)⟩

/-- C10: every plain-text frame buffer `createTextFrame` produces is
internally size-consistent: its total length is 10 plus the big-endian value
stored in its size field at offset 4, that declared size is the utf16 encoded
byte length of the text plus 1, and the leading encoding byte (offset 10) is
`0x01`. -/
theorem C10_text_frame_size_consistency (frameName frameValue : String) (f : List Nat)
    (h : FrameEncoder.createTextFrame frameName frameValue = some f) :
    f.length = 10 + readUInt32BE f 4 ∧
    readUInt32BE f 4 = (utf16Encode frameValue).length + 1 ∧
    f.getD 10 0 = 1 := by
  unfold FrameEncoder.createTextFrame at h
  by_cases hlt : (utf16Encode frameValue).length + 1 < 4294967296
  case neg => rw [if_neg hlt] at h; cases h
  rw [if_pos hlt] at h
  cases h
  set encoded := utf16Encode frameValue with henc
  set hdr := bufWrite (bufWrite (List.replicate 10 0) 0 (utf8EncodeStr frameName)) 4
    (uint32BE (encoded.length + 1)) with hhdr
  have hlen0 : (bufWrite (List.replicate 10 0) 0 (utf8EncodeStr frameName)).length = 10 := by
    rw [bufWrite_length _ _ _ (by simp)]
    simp
  have hlenh : hdr.length = 10 := by
    rw [hhdr, bufWrite_length _ _ _ (by omega)]
    exact hlen0
  have hu32len : (uint32BE (encoded.length + 1)).length = 4 := by
    simp [uint32BE]
  have hb : ∀ i, i < 4 → (hdr ++ [1] ++ encoded).getD (4 + i) 0
      = (uint32BE (encoded.length + 1)).getD i 0 := by
    intro i hi
    rw [List.getD_append _ _ _ _ (by rw [List.length_append, hlenh]; omega)]
    rw [List.getD_append _ _ _ _ (by omega)]
    rw [hhdr]
    exact bufWrite_getD _ _ 4 i (by omega) hi
  have hx := hb 0 (by omega)
  have hy := hb 1 (by omega)
  have hz := hb 2 (by omega)
  have hw := hb 3 (by omega)
  simp only [uint32BE, List.getD_cons_zero, List.getD_cons_succ, Nat.reduceAdd] at hx hy hz hw
  have hread : readUInt32BE (hdr ++ [1] ++ encoded) 4 = encoded.length + 1 := by
    unfold readUInt32BE
    simp only [Nat.reduceAdd]
    rw [hx, hy, hz, hw]
    omega
  rw [hread]
  refine ⟨?_, rfl, ?_⟩
  · simp only [List.length_append, hlenh, List.length_cons, List.length_nil]
    omega
  · rw [List.getD_append _ _ _ _ (by simp [hlenh])]
    rw [List.getD_append_right _ _ _ _ (by rw [hlenh])]
    rw [hlenh]
    rfl

/-- Witness for C10 at the frame `TIT2` with value `A`. -/
theorem C10_text_frame_size_consistency_witness :
    FrameEncoder.createTextFrame "TIT2" "A"
        = some [84, 73, 84, 50, 0, 0, 0, 5, 0, 0, 1, 255, 254, 65, 0] ∧
      ([84, 73, 84, 50, 0, 0, 0, 5, 0, 0, 1, 255, 254, 65, 0] : List Nat).length
          = 10 + readUInt32BE [84, 73, 84, 50, 0, 0, 0, 5, 0, 0, 1, 255, 254, 65, 0] 4 ∧
        readUInt32BE [84, 73, 84, 50, 0, 0, 0, 5, 0, 0, 1, 255, 254, 65, 0] 4
          = (utf16Encode "A").length + 1 ∧
        ([84, 73, 84, 50, 0, 0, 0, 5, 0, 0, 1, 255, 254, 65, 0] : List Nat).getD 10 0 = 1 :=
  ⟨by decide,
    C10_text_frame_size_consistency "TIT2" "A" [84, 73, 84, 50, 0, 0, 0, 5, 0, 0, 1, 255, 254, 65, 0]
      (by decide)⟩

end ID3
